import Mathlib

/-!
Shallow embedding of the numerical core of the DICOM dose-profile tool:
`RTDoseReader` (read_rtdose.py) and `ProfileTool` (profiles_from_dicom.py),
with the zero-point geometry of `ProfileTool.get_zero_point` and the beam
parameters read by `RTPlanReader` (read_rtplan.py).

Coordinates, spacings and dose values are embedded as exact rationals; the
zero-point derivation, which uses trigonometric functions, is embedded over
the reals.  Fallible code (`raise`) is embedded as `Except String`; Python
`None` results are embedded as `Option`.
-/

namespace DoseTool

/-- A 3-vector of rationals: a DICOM patient-space point, an index-space
point, or an offset, in the order (x, y, z). -/
abbrev V3 : Type := ℚ × ℚ × ℚ

/-- The squared Euclidean distance between `p0` and `p1`.
`np.linalg.norm(p1 - p0)` in `RTDoseReader.get_profile` is the square root
of this quantity. -/
def dist2 (p0 p1 : V3) : ℚ :=
  (p1.1 - p0.1) ^ 2 + (p1.2.1 - p0.2.1) ^ 2 + (p1.2.2 - p0.2.2) ^ 2

/-- `samples = int(dist // spacing) + 1` from `RTDoseReader.get_profile`,
where `dist = np.linalg.norm(p1 - p0)`.  For `0 < spacing` we have
`dist / spacing = Real.sqrt (dist2 p0 p1 / spacing ^ 2)`, and the floor of
the square root of a nonnegative rational `r` equals `Nat.sqrt ⌊r⌋.toNat`;
the lemma `numSamples_eq_floor` below proves that this definition equals
`⌊dist / spacing⌋ + 1` exactly. -/
def numSamples (p0 p1 : V3) (spacing : ℚ) : ℕ :=
  Nat.sqrt (⌊dist2 p0 p1 / spacing ^ 2⌋).toNat + 1

/-- `np.linspace(a, b, n)`: `n` evenly spaced values from `a` to `b`
inclusive.  As in NumPy, `n = 1` yields `[a]` and `n = 0` yields `[]`. -/
def linspace (a b : ℚ) (n : ℕ) : List ℚ :=
  if n = 1 then [a]
  else (List.range n).map fun i : ℕ => a + (b - a) * (i : ℚ) / ((n : ℚ) - 1)

/-- The list of sample points of `RTDoseReader.get_profile`: the columns of
`np.vstack([xs, ys, zs])` where `xs = np.linspace(x0, x1, samples)` and
likewise for `ys`, `zs`. -/
def linspace3 (p0 p1 : V3) (n : ℕ) : List V3 :=
  List.zipWith (fun x yz => (x, yz)) (linspace p0.1 p1.1 n)
    (List.zipWith Prod.mk (linspace p0.2.1 p1.2.1 n) (linspace p0.2.2 p1.2.2 n))

/-- The interpolation methods accepted by
`RTDoseReader.set_interpolation_method` (`'nearest'` and `'linear'`). -/
inductive Method : Type
  | nearest : Method
  | linear : Method
deriving DecidableEq

/-- The dose grid held by an `RTDoseReader`: the array dimensions (after the
`(2, 1, 0)` transpose), the stored pixel array, and `DoseGridScaling`.
`pixel` is total on `ℕ³`; only indices below the dimensions are ever read
by in-bounds interpolation. -/
structure Grid : Type where
  nx : ℕ
  ny : ℕ
  nz : ℕ
  pixel : ℕ → ℕ → ℕ → ℚ
  scaling : ℚ

/-- `dose_array = pixel_array * dose_grid_scaling` (the `dose_array`
property of `RTDoseReader`), read at one voxel. -/
def doseAt (g : Grid) (i j k : ℕ) : ℚ := g.pixel i j k * g.scaling

/-- Whether an index-space point lies inside the interpolation domain
`range(dim[0]) × range(dim[1]) × range(dim[2])` of the
`RegularGridInterpolator` built by `_configure_interpolator`. -/
def inBounds (g : Grid) (p : V3) : Prop :=
  0 ≤ p.1 ∧ p.1 ≤ (g.nx : ℚ) - 1 ∧
  0 ≤ p.2.1 ∧ p.2.1 ≤ (g.ny : ℚ) - 1 ∧
  0 ≤ p.2.2 ∧ p.2.2 ≤ (g.nz : ℚ) - 1

instance (g : Grid) (p : V3) : Decidable (inBounds g p) := by
  unfold inBounds
  infer_instance

/-- The nearest integer grid index to a coordinate, ties broken toward the
lower index (the `'nearest'` kernel of `RegularGridInterpolator`). -/
def nearestIndex (x : ℚ) : ℕ := (⌈x - 1 / 2⌉).toNat

/-- The `'nearest'` interpolation kernel at an in-bounds point. -/
def interpNearest (g : Grid) (p : V3) : ℚ :=
  doseAt g (nearestIndex p.1) (nearestIndex p.2.1) (nearestIndex p.2.2)

/-- The `'linear'` (trilinear) interpolation kernel at an in-bounds point:
the weighted average of the 8 surrounding grid nodes. -/
def interpLinear (g : Grid) (p : V3) : ℚ :=
  let i := (⌊p.1⌋).toNat
  let j := (⌊p.2.1⌋).toNat
  let k := (⌊p.2.2⌋).toNat
  let fx := p.1 - (i : ℚ)
  let fy := p.2.1 - (j : ℚ)
  let fz := p.2.2 - (k : ℚ)
  (1 - fx) * (1 - fy) * (1 - fz) * doseAt g i j k +
    fx * (1 - fy) * (1 - fz) * doseAt g (i + 1) j k +
    (1 - fx) * fy * (1 - fz) * doseAt g i (j + 1) k +
    (1 - fx) * (1 - fy) * fz * doseAt g i j (k + 1) +
    fx * fy * (1 - fz) * doseAt g (i + 1) (j + 1) k +
    fx * (1 - fy) * fz * doseAt g (i + 1) j (k + 1) +
    (1 - fx) * fy * fz * doseAt g i (j + 1) (k + 1) +
    fx * fy * fz * doseAt g (i + 1) (j + 1) (k + 1)

/-- The `RegularGridInterpolator` configured by `_configure_interpolator`
with `bounds_error=False, fill_value=0`: an out-of-bounds query in any
dimension returns exactly 0, otherwise the selected kernel is applied. -/
def interpolate (m : Method) (g : Grid) (p : V3) : ℚ :=
  if inBounds g p then
    match m with
    | Method.nearest => interpNearest g p
    | Method.linear => interpLinear g p
  else 0

/-- `np.cross` of two 3-vectors. -/
def cross3 (u v : V3) : V3 :=
  (u.2.1 * v.2.2 - u.2.2 * v.2.1,
   u.2.2 * v.1 - u.1 * v.2.2,
   u.1 * v.2.1 - u.2.1 * v.1)

/-- `RTDoseReader._dicom_pixel_to_patient_slice`: the 4×4 homogeneous
transform of DICOM Standard Equation C.7.6.2.1-1 mapping pixel indices to
patient coordinates.  `iopX`/`iopY` are the two image-orientation vectors,
and the third column is their cross product scaled by the slice
thickness. -/
def dicomPixelToPatientSlice (ipp iopX iopY : V3)
    (rowPixelSpacing colPixelSpacing sliceThickness : ℚ) :
    Matrix (Fin 4) (Fin 4) ℚ :=
  let z := cross3 iopX iopY
  !![iopX.1 * colPixelSpacing, iopY.1 * rowPixelSpacing, z.1 * sliceThickness, ipp.1;
     iopX.2.1 * colPixelSpacing, iopY.2.1 * rowPixelSpacing, z.2.1 * sliceThickness, ipp.2.1;
     iopX.2.2 * colPixelSpacing, iopY.2.2 * rowPixelSpacing, z.2.2 * sliceThickness, ipp.2.2;
     0, 0, 0, 1]

/-- `np.linalg.inv`: raises `LinAlgError` on an exactly singular matrix,
otherwise returns the inverse (written via the adjugate so that the
definition is executable over `ℚ`). -/
def matInv (A : Matrix (Fin 4) (Fin 4) ℚ) :
    Except String (Matrix (Fin 4) (Fin 4) ℚ) :=
  if A.det = 0 then Except.error "LinAlgError: Singular matrix"
  else Except.ok (A.det⁻¹ • A.adjugate)

/-- Application of a 4×4 homogeneous matrix to a point `(x, y, z, 1)`,
reading back the first three rows (the `[:3, :]` slice used by
`get_profile`). -/
def applyMat (A : Matrix (Fin 4) (Fin 4) ℚ) (p : V3) : V3 :=
  (A 0 0 * p.1 + A 0 1 * p.2.1 + A 0 2 * p.2.2 + A 0 3,
   A 1 0 * p.1 + A 1 1 * p.2.1 + A 1 2 * p.2.2 + A 1 3,
   A 2 0 * p.1 + A 2 1 * p.2.1 + A 2 2 * p.2.2 + A 2 3)

/-- The state of a configured `RTDoseReader`: its dose grid, its
`_pixel_to_coords_matrix`, its interpolation method, and its
`DoseUnits` string. -/
structure Reader : Type where
  grid : Grid
  mat : Matrix (Fin 4) (Fin 4) ℚ
  method : Method
  units : String

/-- `RTDoseReader.get_profile` (the `return_coords=True` shape used by
`ProfileTool`): if either endpoint is `None` the function falls through and
returns `None`; otherwise it builds `samples = int(dist // spacing) + 1`
linspace points, inverts the pixel-to-coordinates matrix (which raises
`LinAlgError` if singular), and interpolates the dose at each transformed
point, returning rows `(x, y, z, dose)`. -/
def rtdoseGetProfile (r : Reader) (p0opt p1opt : Option V3) (spacing : ℚ) :
    Except String (Option (List (V3 × ℚ))) :=
  match p0opt, p1opt with
  | some p0, some p1 =>
    let n := numSamples p0 p1 spacing
    let pts := linspace3 p0 p1 n
    match matInv r.mat with
    | Except.error e => Except.error e
    | Except.ok minv =>
      Except.ok (some (pts.map fun q => (q, interpolate r.method r.grid (applyMat minv q))))
  | _, _ => Except.ok none

/-- Python `str.upper()` on a single ASCII character (the unit names this
tool compares are ASCII). -/
def upChar (c : Char) : Char :=
  if 'a' ≤ c ∧ c ≤ 'z' then Char.ofNat (c.toNat - 32) else c

/-- Python `str.upper()`, as used in `profile_dose_units.upper()`. -/
def pyUpper (s : String) : String := String.mk (s.data.map upChar)

/-- The dose-unit conversion step of `ProfileTool.get_profile`, applied to
the rows after the zero-point shift: native `'GY'` with requested units
upper-casing to `'CGY'` multiplies the dose column by 100, native `'GY'`
otherwise leaves it unchanged, native `'RELATIVE'` raises, and any other
native unit raises. -/
def convertDose (native requested : String) (rows : List (V3 × ℚ)) :
    Except String (List (V3 × ℚ)) :=
  if native = "GY" then
    if pyUpper requested = "CGY" then
      Except.ok (rows.map fun rc => (rc.1, rc.2 * 100))
    else Except.ok rows
  else if native = "RELATIVE" then
    Except.error "DICOM dose units == RELATIVE. Relative dose not supported."
  else Except.error ("Invalid dose units " ++ native)

/-- The monitor-unit normalization block at the end of
`ProfileTool.get_profile`: when `normalize_by_monitor_units` is set and
`'Monitor Units'` is present in the plan reader's `beam_parameters`, the
dose column is divided by its value; otherwise the rows pass through
unchanged. -/
def normalizeMU (norm : Bool) (monitorUnits : Option ℚ)
    (rows : List (V3 × ℚ)) : List (V3 × ℚ) :=
  if norm then
    match monitorUnits with
    | some mu => rows.map fun rc => (rc.1, rc.2 / mu)
    | none => rows
  else rows

/-- `ProfileTool.get_profile` with the zero point already resolved to a
vector `zeroPoint` (the code resolves `None` to the origin, `'default'` to
`get_zero_point`, and anything else to `np.asarray(zero_point)` before this
arithmetic).  `monitorUnits` is `beam_parameters['Monitor Units']` when
present.  Steps, in source order: multiply the requested spacing by 10,
sample the dose reader from `p0 + zero_point` to `p1 + zero_point`,
subtract the zero point from the reported coordinates, apply the dose-unit
conversion, and divide by the monitor units when normalization is requested
and they are present. -/
def profileToolGetProfile (r : Reader) (monitorUnits : Option ℚ) (p0 p1 : V3)
    (spacing : ℚ) (profileDoseUnits : String) (normalizeByMU : Bool)
    (zeroPoint : V3) : Except String (List (V3 × ℚ)) :=
  let spacing10 := spacing * 10
  match rtdoseGetProfile r (some (p0 + zeroPoint)) (some (p1 + zeroPoint)) spacing10 with
  | Except.error e => Except.error e
  | Except.ok none => Except.error "TypeError: NoneType is not subscriptable"
  | Except.ok (some rows) =>
    let shifted := rows.map fun rc => (rc.1 - zeroPoint, rc.2)
    match convertDose r.units profileDoseUnits shifted with
    | Except.error e => Except.error e
    | Except.ok converted =>
      Except.ok (normalizeMU normalizeByMU monitorUnits converted)

/-- One line of `ProfileTool.profiles_from_file`: the parsed endpoints (in
centimeters) are multiplied by 10 before the call to `get_profile`, and the
coordinate columns of the resulting profile are divided by 10
(`profile[:, :3] = profile[:, :3] / 10`). -/
def profilesFromFileLine (r : Reader) (monitorUnits : Option ℚ) (p0cm p1cm : V3)
    (spacing : ℚ) (profileDoseUnits : String) (normalizeByMU : Bool)
    (zeroPoint : V3) : Except String (List (V3 × ℚ)) :=
  match profileToolGetProfile r monitorUnits ((10 : ℚ) • p0cm) ((10 : ℚ) • p1cm)
      spacing profileDoseUnits normalizeByMU zeroPoint with
  | Except.error e => Except.error e
  | Except.ok rows => Except.ok (rows.map fun rc => (((1 : ℚ) / 10) • rc.1, rc.2))

/-- The beam parameters read by `RTPlanReader.read_beam_parameters_from_dataset`;
each field is `some` exactly when the corresponding key is present in the
`beam_parameters` dictionary.  Real-valued because the zero-point geometry
uses trigonometry. -/
structure BeamParams : Type where
  isocenter : Option (ℝ × ℝ × ℝ)
  monitorUnits : Option ℝ
  ssd : Option ℝ
  sad : Option ℝ
  gantryAngle : Option ℝ

/-- `np.radians`: degrees to radians. -/
noncomputable def radians (d : ℝ) : ℝ := d * Real.pi / 180

/-- `ProfileTool.get_zero_point`: in mode `'INTERCEPT_CAX_SURFACE'`, if any
of `'Isocenter'`, `'Gantry Angle'`, `'SSD'` is absent the function returns
`None`; otherwise it reads `'SAD'` from the dictionary — a `KeyError` if
that key is absent, since `'SAD'` is not in the guarding `all(...)` check —
and returns the central-axis surface intercept.  Any other mode falls
through to an implicit `None`. -/
noncomputable def getZeroPoint (bp : BeamParams) (mode : String) :
    Except String (Option (ℝ × ℝ × ℝ)) :=
  if mode = "INTERCEPT_CAX_SURFACE" then
    match bp.isocenter, bp.gantryAngle, bp.ssd with
    | some iso, some g, some s =>
      match bp.sad with
      | some a =>
        Except.ok (some
          (iso.1 - (s - a) * Real.sin (radians g),
           iso.2.1 + (s - a) * Real.cos (radians g),
           iso.2.2))
      | none => Except.error "KeyError: SAD"
    | _, _, _ => Except.ok none
  else Except.ok none

/-- The `i`-th of `n` evenly spaced points from `p0` to `p1` (the closed
form of a `linspace` entry, used to state lemmas about `linspace3`). -/
def lerp3 (p0 p1 : V3) (n : ℕ) (i : ℕ) : V3 :=
  (p0.1 + (p1.1 - p0.1) * i / ((n : ℚ) - 1),
   p0.2.1 + (p1.2.1 - p0.2.1) * i / ((n : ℚ) - 1),
   p0.2.2 + (p1.2.2 - p0.2.2) * i / ((n : ℚ) - 1))

/-- A concrete 2×2×2 grid with constant pixel value 7 and unit scaling,
used to instantiate the theorems at concrete inputs. -/
def gridG : Grid where
  nx := 2
  ny := 2
  nz := 2
  pixel := fun _ _ _ => 7
  scaling := 1

/-- A concrete configured reader over `gridG`: identity
pixel-to-coordinates matrix, nearest-neighbour interpolation, native dose
units GY. -/
def readerG : Reader where
  grid := gridG
  mat := 1
  method := Method.nearest
  units := "GY"

/-! ### Algebraic lemmas about the line sampler -/

theorem zipWith_map_same {α β γ δ : Type} (f : α → β) (g : α → γ) (h : β → γ → δ) :
    (l : List α) → List.zipWith h (l.map f) (l.map g) = l.map fun x => h (f x) (g x)
  | [] => rfl
  | _ :: l => by simp [zipWith_map_same f g h l]

theorem linspace3_eq (p0 p1 : V3) (n : ℕ) :
    linspace3 p0 p1 n =
      if n = 1 then [p0] else (List.range n).map (lerp3 p0 p1 n) := by
  unfold linspace3 linspace
  split
  · simp
  · rw [zipWith_map_same (fun i : ℕ => p0.2.1 + (p1.2.1 - p0.2.1) * (i : ℚ) / ((n : ℚ) - 1))
      (fun i : ℕ => p0.2.2 + (p1.2.2 - p0.2.2) * (i : ℚ) / ((n : ℚ) - 1)) Prod.mk (List.range n)]
    rw [zipWith_map_same (fun i : ℕ => p0.1 + (p1.1 - p0.1) * (i : ℚ) / ((n : ℚ) - 1))
      (fun i : ℕ => (p0.2.1 + (p1.2.1 - p0.2.1) * (i : ℚ) / ((n : ℚ) - 1),
        p0.2.2 + (p1.2.2 - p0.2.2) * (i : ℚ) / ((n : ℚ) - 1)))
      (fun x yz => (x, yz)) (List.range n)]
    rfl

theorem linspace3_length (p0 p1 : V3) (n : ℕ) : (linspace3 p0 p1 n).length = n := by
  rw [linspace3_eq]
  split
  · simp [*]
  · simp

theorem linspace3_left_mem (p0 p1 : V3) {n : ℕ} (hn : 1 ≤ n) :
    p0 ∈ linspace3 p0 p1 n := by
  rw [linspace3_eq]
  split
  · simp
  · refine List.mem_map.2 ⟨0, List.mem_range.2 (by omega), ?_⟩
    simp [lerp3]

theorem linspace3_right_mem (p0 p1 : V3) {n : ℕ} (hn : 2 ≤ n) :
    p1 ∈ linspace3 p0 p1 n := by
  rw [linspace3_eq]
  rw [if_neg (by omega)]
  refine List.mem_map.2 ⟨n - 1, List.mem_range.2 (by omega), ?_⟩
  have hcast : ((n - 1 : ℕ) : ℚ) = (n : ℚ) - 1 := by
    have : (1 : ℕ) ≤ n := by omega
    push_cast [this]
    ring
  have hne : ((n : ℚ) - 1) ≠ 0 := by
    have : (2 : ℚ) ≤ (n : ℚ) := by exact_mod_cast hn
    nlinarith
  unfold lerp3
  rw [hcast]
  obtain ⟨x0, y0, z0⟩ := p0
  obtain ⟨x1, y1, z1⟩ := p1
  simp only [Prod.mk.injEq]
  refine ⟨?_, ?_, ?_⟩ <;> field_simp

theorem lerp3_add (p0 p1 z : V3) (n i : ℕ) :
    lerp3 (p0 + z) (p1 + z) n i = lerp3 p0 p1 n i + z := by
  obtain ⟨x0, y0, z0⟩ := p0
  obtain ⟨x1, y1, z1⟩ := p1
  obtain ⟨a, b, c⟩ := z
  simp only [lerp3, Prod.mk_add_mk, Prod.mk.injEq]
  refine ⟨by ring, by ring, by ring⟩

theorem linspace3_add (p0 p1 z : V3) (n : ℕ) :
    linspace3 (p0 + z) (p1 + z) n = (linspace3 p0 p1 n).map (· + z) := by
  rw [linspace3_eq, linspace3_eq]
  split
  · simp
  · rw [List.map_map]
    exact List.map_congr_left fun i _ => lerp3_add p0 p1 z n i

theorem linspace3_shift_cancel (p0 p1 z : V3) (n : ℕ) :
    (linspace3 (p0 + z) (p1 + z) n).map (fun q => q - z) = linspace3 p0 p1 n := by
  rw [linspace3_add, List.map_map]
  have hfun : ((fun q : V3 => q - z) ∘ fun q : V3 => q + z) = id := by
    funext q
    simp [add_sub_cancel_right]
  rw [hfun, List.map_id]

theorem lerp3_smul (c : ℚ) (p0 p1 : V3) (n i : ℕ) :
    lerp3 (c • p0) (c • p1) n i = c • lerp3 p0 p1 n i := by
  obtain ⟨x0, y0, z0⟩ := p0
  obtain ⟨x1, y1, z1⟩ := p1
  simp only [lerp3, Prod.smul_mk, smul_eq_mul, Prod.mk.injEq]
  refine ⟨by ring, by ring, by ring⟩

theorem linspace3_smul (c : ℚ) (p0 p1 : V3) (n : ℕ) :
    linspace3 (c • p0) (c • p1) n = (linspace3 p0 p1 n).map (c • ·) := by
  rw [linspace3_eq, linspace3_eq]
  split
  · simp
  · rw [List.map_map]
    exact List.map_congr_left fun i _ => lerp3_smul c p0 p1 n i

theorem dist2_nonneg (p0 p1 : V3) : 0 ≤ dist2 p0 p1 := by
  unfold dist2
  positivity

theorem dist2_shift (p0 p1 z : V3) : dist2 (p0 + z) (p1 + z) = dist2 p0 p1 := by
  simp only [dist2, Prod.fst_add, Prod.snd_add]
  ring

theorem dist2_smul (c : ℚ) (p0 p1 : V3) :
    dist2 (c • p0) (c • p1) = c ^ 2 * dist2 p0 p1 := by
  simp only [dist2, Prod.smul_fst, Prod.smul_snd, smul_eq_mul]
  ring

theorem numSamples_shift (p0 p1 z : V3) (s : ℚ) :
    numSamples (p0 + z) (p1 + z) s = numSamples p0 p1 s := by
  unfold numSamples
  rw [dist2_shift]

theorem numSamples_scale10 (p0 p1 z : V3) (s : ℚ) :
    numSamples ((10 : ℚ) • p0 + z) ((10 : ℚ) • p1 + z) (s * 10) =
      numSamples p0 p1 s := by
  rw [numSamples_shift]
  unfold numSamples
  rw [dist2_smul]
  have h : (10 : ℚ) ^ 2 * dist2 p0 p1 / (s * 10) ^ 2 = dist2 p0 p1 / s ^ 2 := by
    rw [mul_pow, mul_comm (s ^ 2) ((10 : ℚ) ^ 2)]
    apply mul_div_mul_left
    norm_num
  rw [h]

/-! ### The sample-count formula agrees with the floor of the real distance -/

theorem floor_sqrt_ratCast (r : ℚ) (hr : 0 ≤ r) :
    ⌊Real.sqrt (r : ℝ)⌋ = (Nat.sqrt (⌊r⌋).toNat : ℤ) := by
  have hfl : 0 ≤ ⌊r⌋ := Int.floor_nonneg.2 hr
  set m : ℕ := (⌊r⌋).toNat with hm
  set n : ℕ := Nat.sqrt m with hn
  have hmZ : (m : ℤ) = ⌊r⌋ := Int.toNat_of_nonneg hfl
  have hmq : (m : ℚ) ≤ r := by
    have h1 : ((⌊r⌋ : ℤ) : ℚ) ≤ r := Int.floor_le r
    rw [← hmZ] at h1
    exact_mod_cast h1
  have hlow : ((n : ℝ)) ≤ Real.sqrt (r : ℝ) := by
    rw [Real.le_sqrt (by positivity) (by exact_mod_cast hr)]
    have h2 : ((n : ℚ)) ^ 2 ≤ r := by
      calc ((n : ℚ)) ^ 2 = ((n ^ 2 : ℕ) : ℚ) := by push_cast; ring
        _ ≤ (m : ℚ) := by exact_mod_cast Nat.sqrt_le' m
        _ ≤ r := hmq
    exact_mod_cast h2
  have hupp : Real.sqrt (r : ℝ) < (n : ℝ) + 1 := by
    rw [Real.sqrt_lt' (by positivity)]
    have h4 : m < (n + 1) ^ 2 := by
      have := Nat.lt_succ_sqrt' m
      simpa [hn, Nat.succ_eq_add_one] using this
    have h5 : r < (m : ℚ) + 1 := by
      have h5' := Int.lt_floor_add_one r
      rw [← hmZ] at h5'
      exact_mod_cast h5'
    have h6 : (m : ℚ) + 1 ≤ ((n : ℚ) + 1) ^ 2 := by
      have h6' : m + 1 ≤ (n + 1) ^ 2 := h4
      exact_mod_cast h6'
    have h7 : r < ((n : ℚ) + 1) ^ 2 := lt_of_lt_of_le h5 h6
    exact_mod_cast h7
  rw [Int.floor_eq_iff]
  constructor
  · exact_mod_cast hlow
  · push_cast
    exact hupp

theorem numSamples_eq_floor (p0 p1 : V3) (s : ℚ) (hs : 0 < s) :
    (numSamples p0 p1 s : ℤ) =
      ⌊Real.sqrt ((dist2 p0 p1 : ℚ) : ℝ) / (s : ℝ)⌋ + 1 := by
  have hd : 0 ≤ dist2 p0 p1 := dist2_nonneg p0 p1
  have hs' : (0 : ℝ) < (s : ℝ) := by exact_mod_cast hs
  have hq : Real.sqrt (((dist2 p0 p1 / s ^ 2 : ℚ)) : ℝ)
      = Real.sqrt ((dist2 p0 p1 : ℚ) : ℝ) / (s : ℝ) := by
    push_cast
    rw [Real.sqrt_div (by exact_mod_cast hd) (((s : ℝ)) ^ 2)]
    rw [Real.sqrt_sq hs'.le]
  rw [← hq]
  rw [floor_sqrt_ratCast _ (div_nonneg hd (sq_nonneg s))]
  unfold numSamples
  push_cast
  ring

theorem two_le_numSamples (p0 p1 : V3) (s : ℚ) (h : s ^ 2 ≤ dist2 p0 p1)
    (hs : 0 < s) : 2 ≤ numSamples p0 p1 s := by
  unfold numSamples
  have h1 : (1 : ℚ) ≤ dist2 p0 p1 / s ^ 2 := (one_le_div (by positivity)).2 h
  have h2 : (1 : ℤ) ≤ ⌊dist2 p0 p1 / s ^ 2⌋ := Int.le_floor.2 (by exact_mod_cast h1)
  have h3 : 0 < (⌊dist2 p0 p1 / s ^ 2⌋).toNat := by omega
  have h4 : 0 < Nat.sqrt (⌊dist2 p0 p1 / s ^ 2⌋).toNat := Nat.sqrt_pos.2 h3
  omega

/-! ### Characterizations of the profile pipeline -/

theorem rtdoseGetProfile_ok (r : Reader) (p0 p1 : V3) (s : ℚ)
    (minv : Matrix (Fin 4) (Fin 4) ℚ) (h : matInv r.mat = Except.ok minv) :
    rtdoseGetProfile r (some p0) (some p1) s =
      Except.ok (some ((linspace3 p0 p1 (numSamples p0 p1 s)).map
        fun q => (q, interpolate r.method r.grid (applyMat minv q)))) := by
  unfold rtdoseGetProfile
  rw [h]

theorem rtdoseGetProfile_ok_inv (r : Reader) (p0 p1 : V3) (s : ℚ)
    (rows : List (V3 × ℚ))
    (h : rtdoseGetProfile r (some p0) (some p1) s = Except.ok (some rows)) :
    ∃ minv, matInv r.mat = Except.ok minv ∧
      rows = (linspace3 p0 p1 (numSamples p0 p1 s)).map
        fun q => (q, interpolate r.method r.grid (applyMat minv q)) := by
  unfold rtdoseGetProfile at h
  cases hm : matInv r.mat with
  | error e =>
    rw [hm] at h
    simp at h
  | ok minv =>
    rw [hm] at h
    simp only [Except.ok.injEq, Option.some.injEq] at h
    exact ⟨minv, rfl, h.symm⟩

theorem convertDose_ok_fst (native requested : String) (rows out : List (V3 × ℚ))
    (h : convertDose native requested rows = Except.ok out) :
    out.map Prod.fst = rows.map Prod.fst := by
  unfold convertDose at h
  split at h
  · split at h
    · simp only [Except.ok.injEq] at h
      rw [← h]
      simp [List.map_map]
    · simp only [Except.ok.injEq] at h
      rw [← h]
  · split at h
    · cases h
    · cases h

theorem normalizeMU_fst (norm : Bool) (mu : Option ℚ) (rows : List (V3 × ℚ)) :
    (normalizeMU norm mu rows).map Prod.fst = rows.map Prod.fst := by
  unfold normalizeMU
  cases norm with
  | false => rfl
  | true =>
    cases mu with
    | none => rfl
    | some m => simp [List.map_map]

theorem rtdoseGetProfile_ne_ok_none (r : Reader) (p0 p1 : V3) (s : ℚ) :
    rtdoseGetProfile r (some p0) (some p1) s ≠ Except.ok none := by
  unfold rtdoseGetProfile
  cases matInv r.mat <;> simp

theorem profileToolGetProfile_err (r : Reader) (mu : Option ℚ) (p0 p1 : V3)
    (s : ℚ) (units : String) (norm : Bool) (z : V3) (e : String)
    (hE : rtdoseGetProfile r (some (p0 + z)) (some (p1 + z)) (s * 10) =
      Except.error e) :
    profileToolGetProfile r mu p0 p1 s units norm z = Except.error e := by
  simp only [profileToolGetProfile]
  rw [hE]

theorem profileToolGetProfile_eq (r : Reader) (mu : Option ℚ) (p0 p1 : V3)
    (s : ℚ) (units : String) (norm : Bool) (z : V3) (rows0 : List (V3 × ℚ))
    (hE : rtdoseGetProfile r (some (p0 + z)) (some (p1 + z)) (s * 10) =
      Except.ok (some rows0)) :
    profileToolGetProfile r mu p0 p1 s units norm z =
      match convertDose r.units units (rows0.map fun rc => (rc.1 - z, rc.2)) with
      | Except.error e => Except.error e
      | Except.ok converted => Except.ok (normalizeMU norm mu converted) := by
  simp only [profileToolGetProfile]
  rw [hE]

theorem profileToolGetProfile_ok_fst (r : Reader) (mu : Option ℚ) (p0 p1 : V3)
    (s : ℚ) (units : String) (norm : Bool) (z : V3) (rows : List (V3 × ℚ))
    (h : profileToolGetProfile r mu p0 p1 s units norm z = Except.ok rows) :
    rows.map Prod.fst = linspace3 p0 p1 (numSamples p0 p1 (s * 10)) := by
  cases hE : rtdoseGetProfile r (some (p0 + z)) (some (p1 + z)) (s * 10) with
  | error e =>
    rw [profileToolGetProfile_err r mu p0 p1 s units norm z e hE] at h
    simp at h
  | ok o =>
    cases o with
    | none => exact absurd hE (rtdoseGetProfile_ne_ok_none r _ _ _)
    | some rows0 =>
      rw [profileToolGetProfile_eq r mu p0 p1 s units norm z rows0 hE] at h
      obtain ⟨minv, -, hrows0⟩ := rtdoseGetProfile_ok_inv _ _ _ _ _ hE
      cases hC : convertDose r.units units (rows0.map fun rc => (rc.1 - z, rc.2)) with
      | error e =>
        rw [hC] at h
        simp at h
      | ok converted =>
        rw [hC] at h
        simp only [Except.ok.injEq] at h
        have hconv : converted.map Prod.fst =
            (rows0.map fun rc => (rc.1 - z, rc.2)).map Prod.fst :=
          convertDose_ok_fst _ _ _ _ hC
        rw [← h, normalizeMU_fst, hconv, hrows0, numSamples_shift]
        rw [List.map_map, List.map_map]
        have hfun : ((Prod.fst ∘ fun rc : V3 × ℚ => (rc.1 - z, rc.2)) ∘
            fun q : V3 => (q, interpolate r.method r.grid (applyMat minv q))) =
            fun q : V3 => q - z := rfl
        rw [hfun]
        exact linspace3_shift_cancel p0 p1 z _

theorem profilesFromFileLine_ok_fst (r : Reader) (mu : Option ℚ) (p0 p1 : V3)
    (s : ℚ) (units : String) (norm : Bool) (z : V3) (rows : List (V3 × ℚ))
    (h : profilesFromFileLine r mu p0 p1 s units norm z = Except.ok rows) :
    rows.map Prod.fst = linspace3 p0 p1 (numSamples p0 p1 s) := by
  unfold profilesFromFileLine at h
  cases hI : profileToolGetProfile r mu ((10 : ℚ) • p0) ((10 : ℚ) • p1) s units norm z with
  | error e =>
    rw [hI] at h
    simp at h
  | ok rows1 =>
    rw [hI] at h
    simp only [Except.ok.injEq] at h
    have h1 := profileToolGetProfile_ok_fst _ _ _ _ _ _ _ _ _ hI
    rw [← h, List.map_map]
    have hfun : (Prod.fst ∘ fun rc : V3 × ℚ => (((1 : ℚ) / 10) • rc.1, rc.2)) =
        (fun q : V3 => ((1 : ℚ) / 10) • q) ∘ Prod.fst := rfl
    rw [hfun, ← List.map_map, h1]
    have hn : numSamples ((10 : ℚ) • p0) ((10 : ℚ) • p1) (s * 10) =
        numSamples p0 p1 s := by
      have h2 := numSamples_scale10 p0 p1 0 s
      simpa using h2
    rw [hn, ← linspace3_smul, smul_smul, smul_smul]
    norm_num

/-! ### Degenerate geometry -/

theorem cross3_eq_zero_of_dep (a b : ℚ) (u v : V3) (hab : ¬(a = 0 ∧ b = 0))
    (h : a • u + b • v = (0 : V3)) : cross3 u v = (0, 0, 0) := by
  obtain ⟨u1, u2, u3⟩ := u
  obtain ⟨v1, v2, v3⟩ := v
  simp only [Prod.smul_mk, smul_eq_mul, Prod.mk_add_mk, Prod.mk_eq_zero] at h
  obtain ⟨h1, h2, h3⟩ := h
  simp only [cross3, Prod.mk.injEq]
  rcases not_and_or.1 hab with ha | hb
  · refine ⟨?_, ?_, ?_⟩
    · have hc : a * (u2 * v3 - u3 * v2) = 0 := by linear_combination v3 * h2 - v2 * h3
      exact (mul_eq_zero.1 hc).resolve_left ha
    · have hc : a * (u3 * v1 - u1 * v3) = 0 := by linear_combination v1 * h3 - v3 * h1
      exact (mul_eq_zero.1 hc).resolve_left ha
    · have hc : a * (u1 * v2 - u2 * v1) = 0 := by linear_combination v2 * h1 - v1 * h2
      exact (mul_eq_zero.1 hc).resolve_left ha
  · refine ⟨?_, ?_, ?_⟩
    · have hc : b * (u2 * v3 - u3 * v2) = 0 := by linear_combination u2 * h3 - u3 * h2
      exact (mul_eq_zero.1 hc).resolve_left hb
    · have hc : b * (u3 * v1 - u1 * v3) = 0 := by linear_combination u3 * h1 - u1 * h3
      exact (mul_eq_zero.1 hc).resolve_left hb
    · have hc : b * (u1 * v2 - u2 * v1) = 0 := by linear_combination u1 * h2 - u2 * h1
      exact (mul_eq_zero.1 hc).resolve_left hb

theorem dicomPixelToPatientSlice_det_zero (ipp u v : V3) (rs cs th : ℚ)
    (hcross : cross3 u v = (0, 0, 0)) :
    (dicomPixelToPatientSlice ipp u v rs cs th).det = 0 := by
  apply Matrix.det_eq_zero_of_column_eq_zero 2
  intro i
  fin_cases i <;>
    simp [dicomPixelToPatientSlice, hcross, Matrix.vecHead, Matrix.vecTail]

theorem matInv_det_zero (A : Matrix (Fin 4) (Fin 4) ℚ) (h : A.det = 0) :
    matInv A = Except.error "LinAlgError: Singular matrix" := by
  unfold matInv
  rw [if_pos h]

/-! ### Evaluation helpers for concrete instances -/

theorem matInv_one : matInv (1 : Matrix (Fin 4) (Fin 4) ℚ) = Except.ok 1 := by
  unfold matInv
  simp [Matrix.det_one, Matrix.adjugate_one]

theorem applyMat_one (p : V3) : applyMat (1 : Matrix (Fin 4) (Fin 4) ℚ) p = p := by
  obtain ⟨x, y, w⟩ := p
  simp [applyMat, Matrix.one_apply]

theorem interpolate_of_not_inBounds (m : Method) (g : Grid) (p : V3)
    (h : ¬ inBounds g p) : interpolate m g p = 0 := by
  unfold interpolate
  rw [if_neg h]

/-! ### Claim theorems -/

/-- C10: whenever `p0` or `p1` is `None` (including the default call with
both omitted), `RTDoseReader.get_profile` returns `None` for every reader
state — no exception is raised and neither the transform matrix nor the
grid is consulted, since the result is the same for all of them. -/
theorem c10_none_endpoints (r : Reader) (q : Option V3) (s : ℚ) :
    rtdoseGetProfile r none q s = Except.ok none ∧
    rtdoseGetProfile r q none s = Except.ok none := by
  constructor <;> cases q <;> rfl

/-- C8: an index-space query point lying outside the voxel array's index
bounds in any dimension returns exactly 0 from the grid interpolator, for
both the NEAREST and the LINEAR kernel, rather than raising an error. -/
theorem c8_zero_fill (m : Method) (g : Grid) (p : V3)
    (h : p.1 < 0 ∨ (g.nx : ℚ) - 1 < p.1 ∨ p.2.1 < 0 ∨ (g.ny : ℚ) - 1 < p.2.1 ∨
      p.2.2 < 0 ∨ (g.nz : ℚ) - 1 < p.2.2) :
    interpolate m g p = 0 := by
  apply interpolate_of_not_inBounds
  unfold inBounds
  intro hc
  obtain ⟨h1, h2, h3, h4, h5, h6⟩ := hc
  rcases h with h | h | h | h | h | h <;> linarith

/-- C8 witness: on the concrete 2×2×2 grid, the query index (1002, 0, 0) —
shape + 1000 in the first dimension — evaluates to 0 under both kernels. -/
theorem c8_zero_fill_witness :
    interpolate Method.nearest gridG ((1002 : ℚ), 0, 0) = 0 ∧
    interpolate Method.linear gridG ((1002 : ℚ), 0, 0) = 0 := by
  constructor <;>
    exact c8_zero_fill _ gridG _ (Or.inr (Or.inl (by norm_num [gridG])))

/-- C2: in mode INTERCEPT_CAX_SURFACE, with isocenter (ix, iy, iz), gantry
angle g, SSD and SAD all present, `get_zero_point` returns exactly
(ix − (SSD−SAD)·sin(radians g), iy + (SSD−SAD)·cos(radians g), iz); in
particular, for isocenter (0,0,0), SSD=100, SAD=90 it returns (0, 10, 0)
at gantry angle 0 and (0, −10, 0) at gantry angle 180. -/
theorem c2_zero_point_formula :
    (∀ (ix iy iz g sv av : ℝ) (mu : Option ℝ),
      getZeroPoint ⟨some (ix, iy, iz), mu, some sv, some av, some g⟩
          "INTERCEPT_CAX_SURFACE" =
        Except.ok (some (ix - (sv - av) * Real.sin (radians g),
          iy + (sv - av) * Real.cos (radians g), iz))) ∧
    getZeroPoint ⟨some (0, 0, 0), none, some 100, some 90, some 0⟩
        "INTERCEPT_CAX_SURFACE" = Except.ok (some (0, 10, 0)) ∧
    getZeroPoint ⟨some (0, 0, 0), none, some 100, some 90, some 180⟩
        "INTERCEPT_CAX_SURFACE" = Except.ok (some (0, -10, 0)) := by
  refine ⟨fun ix iy iz g sv av mu => ?_, ?_, ?_⟩
  · unfold getZeroPoint
    rw [if_pos rfl]
  · unfold getZeroPoint radians
    rw [if_pos rfl]
    norm_num [Real.sin_zero, Real.cos_zero]
  · unfold getZeroPoint radians
    rw [if_pos rfl]
    have h : (180 : ℝ) * Real.pi / 180 = Real.pi := by ring
    norm_num [h, Real.sin_pi, Real.cos_pi]

/-- C5 counterexample: a beam-parameter set with isocenter, gantry angle
and SSD present but SAD absent makes `get_zero_point` raise a KeyError
(reading `beam_params_dict['SAD']`, which the guarding `all(...)` check
does not cover) instead of returning the Unavailable result `None` that
the claim asserts for every missing parameter. -/
theorem c5_counterexample :
    getZeroPoint ⟨some (0, 0, 0), none, some 100, none, some 0⟩
        "INTERCEPT_CAX_SURFACE" = Except.error "KeyError: SAD" ∧
    getZeroPoint ⟨some (0, 0, 0), none, some 100, none, some 0⟩
        "INTERCEPT_CAX_SURFACE" ≠ Except.ok none := by
  constructor
  · unfold getZeroPoint
    rw [if_pos rfl]
  · unfold getZeroPoint
    rw [if_pos rfl]
    simp

/-- C5 (amended): in mode INTERCEPT_CAX_SURFACE, if isocenter, gantry
angle, or SSD is absent the derivation returns `None` (Unavailable, not an
error); but if those three are present and SAD alone is absent, the code
raises a KeyError rather than returning `None`. -/
theorem c5_missing_params_amended :
    (∀ bp : BeamParams,
      bp.isocenter = none ∨ bp.gantryAngle = none ∨ bp.ssd = none →
        getZeroPoint bp "INTERCEPT_CAX_SURFACE" = Except.ok none) ∧
    (∀ bp : BeamParams, bp.isocenter.isSome → bp.gantryAngle.isSome →
      bp.ssd.isSome → bp.sad = none →
        getZeroPoint bp "INTERCEPT_CAX_SURFACE" =
          Except.error "KeyError: SAD") := by
  constructor
  · intro bp h
    unfold getZeroPoint
    rw [if_pos rfl]
    obtain ⟨iso, mu, sv, av, gant⟩ := bp
    cases iso <;> cases gant <;> cases sv <;>
      first
        | rfl
        | (exfalso; rcases h with h | h | h <;> simp_all)
  · intro bp h1 h2 h3 h4
    unfold getZeroPoint
    rw [if_pos rfl]
    obtain ⟨iso, mu, sv, av, gant⟩ := bp
    cases iso with
    | none => simp at h1
    | some i =>
      cases gant with
      | none => simp at h2
      | some gv =>
        cases sv with
        | none => simp at h3
        | some sval =>
          cases av with
          | none => rfl
          | some aval => simp at h4

/-- C5 witness: the amended theorem applied at concrete inputs — a missing
isocenter yields `None`, and a missing SAD (others present) yields the
KeyError. -/
theorem c5_missing_params_amended_witness :
    getZeroPoint ⟨none, none, some 100, some 90, some 0⟩
        "INTERCEPT_CAX_SURFACE" = Except.ok none ∧
    getZeroPoint ⟨some (1, 2, 3), none, some 100, none, some 0⟩
        "INTERCEPT_CAX_SURFACE" = Except.error "KeyError: SAD" :=
  ⟨c5_missing_params_amended.1 _ (Or.inl rfl),
   c5_missing_params_amended.2 _ rfl rfl rfl rfl⟩

/-- C7 counterexample: for the degenerate geometry with both orientation
vectors equal to (1,0,0), `_dicom_pixel_to_patient_slice` does not detect
the degeneracy: it silently returns an explicit matrix, and that matrix is
singular — so construction does not report an error as the claim states. -/
theorem c7_counterexample :
    dicomPixelToPatientSlice ((0 : ℚ), 0, 0) ((1 : ℚ), 0, 0) ((1 : ℚ), 0, 0) 1 1 1 =
      !![(1 : ℚ), 1, 0, 0; 0, 0, 0, 0; 0, 0, 0, 0; 0, 0, 0, 1] ∧
    (!![(1 : ℚ), 1, 0, 0; 0, 0, 0, 0; 0, 0, 0, 0; 0, 0, 0, 1] :
      Matrix (Fin 4) (Fin 4) ℚ).det = 0 := by
  constructor
  · ext i j
    fin_cases i <;> fin_cases j <;>
      norm_num [dicomPixelToPatientSlice, cross3]
  · apply Matrix.det_eq_zero_of_row_eq_zero 1
    intro j
    fin_cases j <;> rfl

/-- C7 (amended): when the two image-orientation vectors are linearly
dependent, the constructed index-to-patient matrix is singular; the
forward construction itself performs no check and returns that matrix
silently, and the degeneracy is reported as a singular-matrix error when
the patient-to-index inverse is computed (`xyz_to_ijk` / `get_profile`),
rather than an unusable inverse being produced. -/
theorem c7_degenerate_amended (ipp u v : V3) (rs cs th : ℚ) (a b : ℚ)
    (hab : ¬(a = 0 ∧ b = 0)) (hdep : a • u + b • v = (0 : V3)) :
    (dicomPixelToPatientSlice ipp u v rs cs th).det = 0 ∧
    matInv (dicomPixelToPatientSlice ipp u v rs cs th) =
      Except.error "LinAlgError: Singular matrix" := by
  have hdet := dicomPixelToPatientSlice_det_zero ipp u v rs cs th
    (cross3_eq_zero_of_dep a b u v hab hdep)
  exact ⟨hdet, matInv_det_zero _ hdet⟩

/-- C7 witness: the amended theorem at the concrete dependent pair
(1,0,0), (2,0,0) with witnesses a = 2, b = −1. -/
theorem c7_degenerate_amended_witness :
    (dicomPixelToPatientSlice ((0 : ℚ), 0, 0) ((1 : ℚ), 0, 0) ((2 : ℚ), 0, 0)
      1 1 1).det = 0 ∧
    matInv (dicomPixelToPatientSlice ((0 : ℚ), 0, 0) ((1 : ℚ), 0, 0)
        ((2 : ℚ), 0, 0) 1 1 1) =
      Except.error "LinAlgError: Singular matrix" :=
  c7_degenerate_amended ((0 : ℚ), 0, 0) ((1 : ℚ), 0, 0) ((2 : ℚ), 0, 0) 1 1 1
    2 (-1) (by norm_num)
    (by norm_num [Prod.smul_mk, Prod.mk_add_mk, Prod.mk_eq_zero])

/-! ### Concrete evaluations on the fixture reader -/

theorem natSqrt_eleven : Nat.sqrt 11 = 3 := (Nat.eq_sqrt'.2 (by norm_num)).symm

theorem numSamples_10_3 : numSamples ((0 : ℚ), 0, 0) ((10 : ℚ), 0, 0) 3 = 4 := by
  have hd : dist2 ((0 : ℚ), 0, 0) ((10 : ℚ), 0, 0) = 100 := by
    unfold dist2
    norm_num
  unfold numSamples
  rw [hd, show (100 : ℚ) / 3 ^ 2 = 100 / 9 by norm_num,
    show ⌊(100 : ℚ) / 9⌋ = 11 from by norm_num [Int.floor_eq_iff],
    show ((11 : ℤ)).toNat = 11 from rfl, natSqrt_eleven]

theorem numSamples_1_3 : numSamples ((0 : ℚ), 0, 0) ((1 : ℚ), 0, 0) 3 = 1 := by
  have hd : dist2 ((0 : ℚ), 0, 0) ((1 : ℚ), 0, 0) = 1 := by
    unfold dist2
    norm_num
  unfold numSamples
  rw [hd, show (1 : ℚ) / 3 ^ 2 = 1 / 9 by norm_num,
    show ⌊(1 : ℚ) / 9⌋ = 0 from by norm_num [Int.floor_eq_iff],
    show ((0 : ℤ)).toNat = 0 from rfl, Nat.sqrt_zero]

theorem numSamples_self (p : V3) (s : ℚ) : numSamples p p s = 1 := by
  have hd : dist2 p p = 0 := by
    unfold dist2
    ring
  unfold numSamples
  rw [hd]
  norm_num

theorem linspace3_one (p0 p1 : V3) : linspace3 p0 p1 1 = [p0] := by
  rw [linspace3_eq, if_pos rfl]

theorem linspace3_two (p0 p1 : V3) : linspace3 p0 p1 2 = [p0, p1] := by
  rw [linspace3_eq, if_neg (by norm_num), show List.range 2 = [0, 1] from rfl]
  obtain ⟨x0, y0, z0⟩ := p0
  obtain ⟨x1, y1, z1⟩ := p1
  norm_num [lerp3]

theorem linspace3_4pts :
    linspace3 ((0 : ℚ), 0, 0) ((10 : ℚ), 0, 0) 4 =
      [((0 : ℚ), 0, 0), ((10 : ℚ) / 3, 0, 0), ((20 : ℚ) / 3, 0, 0),
        ((10 : ℚ), 0, 0)] := by
  rw [linspace3_eq, if_neg (by norm_num),
    show List.range 4 = [0, 1, 2, 3] from rfl]
  norm_num [lerp3]

theorem nearestIndex_zero : nearestIndex 0 = 0 := by
  unfold nearestIndex
  rw [show ⌈(0 : ℚ) - 1 / 2⌉ = 0 from by norm_num [Int.ceil_eq_iff]]
  rfl

theorem interp_origin : interpolate Method.nearest gridG ((0 : ℚ), 0, 0) = 7 := by
  have hb : inBounds gridG ((0 : ℚ), 0, 0) := by
    unfold inBounds
    norm_num [gridG]
  unfold interpolate
  rw [if_pos hb]
  show interpNearest gridG ((0 : ℚ), 0, 0) = 7
  unfold interpNearest
  rw [nearestIndex_zero]
  unfold doseAt
  norm_num [gridG]

theorem not_inBounds_x (x y z : ℚ) (hx : (1 : ℚ) < x) :
    ¬ inBounds gridG (x, y, z) := by
  unfold inBounds
  intro hc
  obtain ⟨-, h2, -⟩ := hc
  rw [show ((gridG.nx : ℚ)) - 1 = 1 from by norm_num [gridG]] at h2
  linarith

theorem rtdose_eval_0_10 :
    rtdoseGetProfile readerG (some ((0 : ℚ), 0, 0)) (some ((10 : ℚ), 0, 0)) 3 =
      Except.ok (some [(((0 : ℚ), 0, 0), 7), (((10 : ℚ) / 3, 0, 0), 0),
        (((20 : ℚ) / 3, 0, 0), 0), (((10 : ℚ), 0, 0), 0)]) := by
  rw [rtdoseGetProfile_ok readerG _ _ _ 1 matInv_one, numSamples_10_3,
    linspace3_4pts]
  simp only [List.map_cons, List.map_nil, applyMat_one]
  rw [show readerG.method = Method.nearest from rfl,
    show readerG.grid = gridG from rfl, interp_origin,
    interpolate_of_not_inBounds _ _ _ (not_inBounds_x _ 0 0 (by norm_num : (1 : ℚ) < 10 / 3)),
    interpolate_of_not_inBounds _ _ _ (not_inBounds_x _ 0 0 (by norm_num : (1 : ℚ) < 20 / 3)),
    interpolate_of_not_inBounds _ _ _ (not_inBounds_x _ 0 0 (by norm_num : (1 : ℚ) < 10))]

theorem rtdose_eval_0_1 :
    rtdoseGetProfile readerG (some ((0 : ℚ), 0, 0)) (some ((1 : ℚ), 0, 0)) 3 =
      Except.ok (some [(((0 : ℚ), 0, 0), 7)]) := by
  rw [rtdoseGetProfile_ok readerG _ _ _ 1 matInv_one, numSamples_1_3,
    linspace3_one]
  simp only [List.map_cons, List.map_nil, applyMat_one]
  rw [show readerG.method = Method.nearest from rfl,
    show readerG.grid = gridG from rfl, interp_origin]

/-- C1 counterexample: for p0 = (0,0,0), p1 = (1,0,0), spacing 3 the
distance is 1 (dist2 = 1), the spacing does not evenly divide it (1/3 has
nonzero fractional part), yet the successful profile consists of the
single sample p0 and the endpoint p1 is absent — refuting the claim that
both endpoints appear whenever spacing does not evenly divide the
distance. -/
theorem c1_counterexample :
    rtdoseGetProfile readerG (some ((0 : ℚ), 0, 0)) (some ((1 : ℚ), 0, 0)) 3 =
      Except.ok (some [(((0 : ℚ), 0, 0), 7)]) ∧
    dist2 ((0 : ℚ), 0, 0) ((1 : ℚ), 0, 0) = 1 ∧
    Int.fract ((1 : ℚ) / 3) ≠ 0 ∧
    ((1 : ℚ), 0, 0) ∉ ([(((0 : ℚ), 0, 0), (7 : ℚ))].map Prod.fst) := by
  refine ⟨rtdose_eval_0_1, by unfold dist2; norm_num, ?_, by simp⟩
  rw [Int.fract, show ⌊(1 : ℚ) / 3⌋ = 0 from by norm_num [Int.floor_eq_iff]]
  norm_num

/-- C1 (amended): for all endpoints, positive spacing and reader state, a
successful `RTDoseReader.get_profile` returns exactly
⌊distance / spacing⌋ + 1 rows whose coordinate columns are the evenly
spaced linspace points, and both endpoints appear among the sampled points
whenever spacing ≤ distance.  (Amendment: the original claim asserted both
endpoints whenever spacing does not evenly divide the distance, which
fails when distance < spacing, where only p0 is returned.) -/
theorem c1_sample_count_amended (r : Reader) (p0 p1 : V3) (s : ℚ)
    (rows : List (V3 × ℚ)) (hs : 0 < s)
    (h : rtdoseGetProfile r (some p0) (some p1) s = Except.ok (some rows)) :
    (rows.length : ℤ) = ⌊Real.sqrt ((dist2 p0 p1 : ℚ) : ℝ) / (s : ℝ)⌋ + 1 ∧
    rows.map Prod.fst = linspace3 p0 p1 (numSamples p0 p1 s) ∧
    ((s : ℝ) ≤ Real.sqrt ((dist2 p0 p1 : ℚ) : ℝ) →
      p0 ∈ rows.map Prod.fst ∧ p1 ∈ rows.map Prod.fst) := by
  obtain ⟨minv, hm, hrows⟩ := rtdoseGetProfile_ok_inv _ _ _ _ _ h
  have hfst : rows.map Prod.fst = linspace3 p0 p1 (numSamples p0 p1 s) := by
    rw [hrows, List.map_map]
    have hid : (Prod.fst ∘ fun q : V3 =>
        (q, interpolate r.method r.grid (applyMat minv q))) = id := rfl
    rw [hid, List.map_id]
  refine ⟨?_, hfst, ?_⟩
  · rw [hrows, List.length_map, linspace3_length]
    exact numSamples_eq_floor p0 p1 s hs
  · intro hcond
    have hd : (0 : ℝ) ≤ ((dist2 p0 p1 : ℚ) : ℝ) := by
      exact_mod_cast dist2_nonneg p0 p1
    have hsq : s ^ 2 ≤ dist2 p0 p1 := by
      have h1 : (s : ℝ) ^ 2 ≤ ((dist2 p0 p1 : ℚ) : ℝ) := by
        have h2 := Real.sq_sqrt hd
        have hs' : (0 : ℝ) < (s : ℝ) := by exact_mod_cast hs
        have h3 : (s : ℝ) * (s : ℝ) ≤
            Real.sqrt ((dist2 p0 p1 : ℚ) : ℝ) * Real.sqrt ((dist2 p0 p1 : ℚ) : ℝ) :=
          mul_le_mul hcond hcond hs'.le (Real.sqrt_nonneg _)
        nlinarith [h3]
      exact_mod_cast h1
    have hn := two_le_numSamples p0 p1 s hsq hs
    rw [hfst]
    exact ⟨linspace3_left_mem p0 p1 (by omega), linspace3_right_mem p0 p1 hn⟩

/-- C1 witness: the spec's own example — p0 = (0,0,0), p1 = (10,0,0),
spacing 3 on the fixture reader: the profile has 4 = ⌊10/3⌋ + 1 samples
and both endpoints appear among the sampled points. -/
theorem c1_sample_count_amended_witness :
    (([(((0 : ℚ), 0, 0), (7 : ℚ)), (((10 : ℚ) / 3, 0, 0), 0),
        (((20 : ℚ) / 3, 0, 0), 0), (((10 : ℚ), 0, 0), 0)] :
      List (V3 × ℚ)).length : ℤ) =
      ⌊Real.sqrt ((dist2 ((0 : ℚ), 0, 0) ((10 : ℚ), 0, 0) : ℚ) : ℝ) /
        ((3 : ℚ) : ℝ)⌋ + 1 ∧
    ((0 : ℚ), 0, 0) ∈ ([(((0 : ℚ), 0, 0), (7 : ℚ)), (((10 : ℚ) / 3, 0, 0), 0),
        (((20 : ℚ) / 3, 0, 0), 0), (((10 : ℚ), 0, 0), 0)] :
      List (V3 × ℚ)).map Prod.fst ∧
    ((10 : ℚ), 0, 0) ∈ ([(((0 : ℚ), 0, 0), (7 : ℚ)), (((10 : ℚ) / 3, 0, 0), 0),
        (((20 : ℚ) / 3, 0, 0), 0), (((10 : ℚ), 0, 0), 0)] :
      List (V3 × ℚ)).map Prod.fst := by
  have h := c1_sample_count_amended readerG ((0 : ℚ), 0, 0) ((10 : ℚ), 0, 0) 3 _
    (by norm_num) rtdose_eval_0_10
  have hd : dist2 ((0 : ℚ), 0, 0) ((10 : ℚ), 0, 0) = 100 := by
    unfold dist2
    norm_num
  have hcond : ((3 : ℚ) : ℝ) ≤
      Real.sqrt ((dist2 ((0 : ℚ), 0, 0) ((10 : ℚ), 0, 0) : ℚ) : ℝ) := by
    rw [hd, show (((100 : ℚ)) : ℝ) = (10 : ℝ) ^ 2 by norm_num,
      Real.sqrt_sq (by norm_num : (0 : ℝ) ≤ 10)]
    norm_num
  exact ⟨h.1, (h.2.2 hcond).1, (h.2.2 hcond).2⟩

/-! ### Unit conversion, normalization, and zero-point cancellation -/

theorem convertDose_GY_Gy (rows : List (V3 × ℚ)) :
    convertDose "GY" "Gy" rows = Except.ok rows := by
  unfold convertDose
  rw [if_pos rfl, if_neg (by decide)]

/-- C3: the dose-unit conversion of `ProfileTool.get_profile`.  With
native unit GY and requested units upper-casing to CGY, every dose value
of the returned profile is the reader's interpolated dose times exactly
100; with native GY and requested GY the dose values pass through
unchanged; with native RELATIVE every call on an invertible grid raises
the unsupported-dose-unit error, whatever the requested units or data;
any other native unit raises the invalid-dose-unit error. -/
theorem c3_unit_conversion (r : Reader) (mu : Option ℚ) (p0 p1 z : V3)
    (s : ℚ) (units : String) :
    (r.units = "GY" → pyUpper units = "CGY" → ∀ rows0 : List (V3 × ℚ),
      rtdoseGetProfile r (some (p0 + z)) (some (p1 + z)) (s * 10) =
        Except.ok (some rows0) →
      profileToolGetProfile r mu p0 p1 s units false z =
        Except.ok (rows0.map fun rc => (rc.1 - z, rc.2 * 100))) ∧
    (r.units = "GY" → pyUpper units = "GY" → ∀ rows0 : List (V3 × ℚ),
      rtdoseGetProfile r (some (p0 + z)) (some (p1 + z)) (s * 10) =
        Except.ok (some rows0) →
      profileToolGetProfile r mu p0 p1 s units false z =
        Except.ok (rows0.map fun rc => (rc.1 - z, rc.2))) ∧
    (r.units = "RELATIVE" → ∀ minv, matInv r.mat = Except.ok minv →
      ∀ norm : Bool,
      profileToolGetProfile r mu p0 p1 s units norm z =
        Except.error
          "DICOM dose units == RELATIVE. Relative dose not supported.") ∧
    (r.units ≠ "GY" → r.units ≠ "RELATIVE" → ∀ minv,
      matInv r.mat = Except.ok minv → ∀ norm : Bool,
      profileToolGetProfile r mu p0 p1 s units norm z =
        Except.error ("Invalid dose units " ++ r.units)) := by
  refine ⟨?_, ?_, ?_, ?_⟩
  · intro hGY hCGY rows0 hE
    rw [profileToolGetProfile_eq r mu p0 p1 s units false z rows0 hE]
    have hc : convertDose r.units units (rows0.map fun rc => (rc.1 - z, rc.2)) =
        Except.ok ((rows0.map fun rc => (rc.1 - z, rc.2)).map
          fun rc => (rc.1, rc.2 * 100)) := by
      unfold convertDose
      rw [if_pos hGY, if_pos hCGY]
    rw [hc]
    simp only [List.map_map]
    rfl
  · intro hGY hGy rows0 hE
    rw [profileToolGetProfile_eq r mu p0 p1 s units false z rows0 hE]
    have hc : convertDose r.units units (rows0.map fun rc => (rc.1 - z, rc.2)) =
        Except.ok (rows0.map fun rc => (rc.1 - z, rc.2)) := by
      unfold convertDose
      rw [if_pos hGY, if_neg (by rw [hGy]; decide)]
    rw [hc]
    rfl
  · intro hREL minv hm norm
    rw [profileToolGetProfile_eq r mu p0 p1 s units norm z _
      (rtdoseGetProfile_ok r (p0 + z) (p1 + z) (s * 10) minv hm)]
    have hc : convertDose r.units units
        (((linspace3 (p0 + z) (p1 + z)
            (numSamples (p0 + z) (p1 + z) (s * 10))).map
          fun q => (q, interpolate r.method r.grid (applyMat minv q))).map
            fun rc => (rc.1 - z, rc.2)) =
        Except.error
          "DICOM dose units == RELATIVE. Relative dose not supported." := by
      unfold convertDose
      rw [if_neg (by rw [hREL]; decide), if_pos hREL]
    rw [hc]
  · intro hGY hREL minv hm norm
    rw [profileToolGetProfile_eq r mu p0 p1 s units norm z _
      (rtdoseGetProfile_ok r (p0 + z) (p1 + z) (s * 10) minv hm)]
    have hc : convertDose r.units units
        (((linspace3 (p0 + z) (p1 + z)
            (numSamples (p0 + z) (p1 + z) (s * 10))).map
          fun q => (q, interpolate r.method r.grid (applyMat minv q))).map
            fun rc => (rc.1 - z, rc.2)) =
        Except.error ("Invalid dose units " ++ r.units) := by
      unfold convertDose
      rw [if_neg hGY, if_neg hREL]
    rw [hc]

theorem rtdose_eval_origin :
    rtdoseGetProfile readerG (some (((0 : ℚ), 0, 0) + ((0 : ℚ), 0, 0)))
      (some (((0 : ℚ), 0, 0) + ((0 : ℚ), 0, 0))) (1 * 10) =
      Except.ok (some [(((0 : ℚ), 0, 0), 7)]) := by
  rw [show (((0 : ℚ), 0, 0) + ((0 : ℚ), 0, 0) : V3) = ((0 : ℚ), 0, 0) from by
    norm_num [Prod.mk_add_mk]]
  rw [rtdoseGetProfile_ok readerG _ _ _ 1 matInv_one, numSamples_self,
    linspace3_one]
  simp only [List.map_cons, List.map_nil, applyMat_one]
  rw [show readerG.method = Method.nearest from rfl,
    show readerG.grid = gridG from rfl, interp_origin]

/-- C3 witness: on the fixture reader (native GY, constant dose 7),
requesting units "cGy" multiplies the single interpolated dose 7 by
exactly 100. -/
theorem c3_unit_conversion_witness :
    profileToolGetProfile readerG none ((0 : ℚ), 0, 0) ((0 : ℚ), 0, 0) 1 "cGy"
      false ((0 : ℚ), 0, 0) = Except.ok [(((0 : ℚ), 0, 0), 700)] := by
  have h := (c3_unit_conversion readerG none ((0 : ℚ), 0, 0) ((0 : ℚ), 0, 0)
    ((0 : ℚ), 0, 0) 1 "cGy").1 rfl (by decide) [(((0 : ℚ), 0, 0), 7)]
    rtdose_eval_origin
  rw [h]
  norm_num [Prod.mk_sub_mk]

/-- C6: monitor-unit normalization in `ProfileTool.get_profile` with a
GY-native grid: requesting normalization with monitor units m present
divides every dose value of the (unit-converted) profile by m; requesting
it with monitor units absent is skipped — the result equals the
unnormalized call; and without normalization the result is independent of
the monitor-unit field. -/
theorem c6_mu_normalization (r : Reader) (p0 p1 z : V3) (s : ℚ)
    (units : String) (m : ℚ) (mu : Option ℚ) (hGY : r.units = "GY") :
    profileToolGetProfile r (some m) p0 p1 s units true z =
      Except.map (List.map fun rc => (rc.1, rc.2 / m))
        (profileToolGetProfile r (some m) p0 p1 s units false z) ∧
    profileToolGetProfile r none p0 p1 s units true z =
      profileToolGetProfile r none p0 p1 s units false z ∧
    profileToolGetProfile r mu p0 p1 s units false z =
      profileToolGetProfile r none p0 p1 s units false z := by
  cases hE : rtdoseGetProfile r (some (p0 + z)) (some (p1 + z)) (s * 10) with
  | error e =>
    rw [profileToolGetProfile_err r (some m) p0 p1 s units true z e hE,
      profileToolGetProfile_err r (some m) p0 p1 s units false z e hE,
      profileToolGetProfile_err r none p0 p1 s units true z e hE,
      profileToolGetProfile_err r none p0 p1 s units false z e hE,
      profileToolGetProfile_err r mu p0 p1 s units false z e hE]
    exact ⟨rfl, rfl, rfl⟩
  | ok o =>
    cases o with
    | none => exact absurd hE (rtdoseGetProfile_ne_ok_none r _ _ _)
    | some rows0 =>
      rw [profileToolGetProfile_eq r (some m) p0 p1 s units true z rows0 hE,
        profileToolGetProfile_eq r (some m) p0 p1 s units false z rows0 hE,
        profileToolGetProfile_eq r none p0 p1 s units true z rows0 hE,
        profileToolGetProfile_eq r none p0 p1 s units false z rows0 hE,
        profileToolGetProfile_eq r mu p0 p1 s units false z rows0 hE]
      cases hC : convertDose r.units units (rows0.map fun rc => (rc.1 - z, rc.2)) with
      | error e => exact ⟨rfl, rfl, rfl⟩
      | ok converted => exact ⟨rfl, rfl, rfl⟩

theorem ptp_eval_origin (mu : Option ℚ) :
    profileToolGetProfile readerG mu ((0 : ℚ), 0, 0) ((0 : ℚ), 0, 0) 1 "Gy"
      false ((0 : ℚ), 0, 0) = Except.ok [(((0 : ℚ), 0, 0), 7)] := by
  rw [profileToolGetProfile_eq readerG mu ((0 : ℚ), 0, 0) ((0 : ℚ), 0, 0) 1
    "Gy" false ((0 : ℚ), 0, 0) [(((0 : ℚ), 0, 0), 7)] rtdose_eval_origin]
  rw [show readerG.units = "GY" from rfl, convertDose_GY_Gy]
  norm_num [normalizeMU, Prod.mk_sub_mk]

/-- C6 witness: on the fixture reader, with monitor units 200, requesting
normalization returns dose 7/200; requesting it with monitor units absent
equals the unnormalized call. -/
theorem c6_mu_normalization_witness :
    profileToolGetProfile readerG (some 200) ((0 : ℚ), 0, 0) ((0 : ℚ), 0, 0)
      1 "Gy" true ((0 : ℚ), 0, 0) = Except.ok [(((0 : ℚ), 0, 0), 7 / 200)] ∧
    profileToolGetProfile readerG none ((0 : ℚ), 0, 0) ((0 : ℚ), 0, 0)
      1 "Gy" true ((0 : ℚ), 0, 0) =
      profileToolGetProfile readerG none ((0 : ℚ), 0, 0) ((0 : ℚ), 0, 0)
        1 "Gy" false ((0 : ℚ), 0, 0) := by
  have hw := c6_mu_normalization readerG ((0 : ℚ), 0, 0) ((0 : ℚ), 0, 0)
    ((0 : ℚ), 0, 0) 1 "Gy" 200 none rfl
  refine ⟨?_, hw.2.1⟩
  rw [hw.1, ptp_eval_origin (some 200)]
  norm_num [Except.map]

/-- C9: the coordinate columns of a successful `ProfileTool.get_profile`
call equal the evenly spaced points from p0 toward p1 computed in exact
arithmetic, independent of the resolved zero point: the +z shift before
sampling and the −z shift afterward cancel, so two runs differing only in
the zero point return identical coordinate columns (they can differ only
in the dose column). -/
theorem c9_zero_point_cancellation (r : Reader) (mu : Option ℚ) (p0 p1 : V3)
    (s : ℚ) (units : String) (norm : Bool) (z z' : V3)
    (rows rows' : List (V3 × ℚ))
    (h : profileToolGetProfile r mu p0 p1 s units norm z = Except.ok rows)
    (h' : profileToolGetProfile r mu p0 p1 s units norm z' = Except.ok rows') :
    rows.map Prod.fst = linspace3 p0 p1 (numSamples p0 p1 (s * 10)) ∧
    rows'.map Prod.fst = rows.map Prod.fst := by
  have a1 := profileToolGetProfile_ok_fst _ _ _ _ _ _ _ _ _ h
  have a2 := profileToolGetProfile_ok_fst _ _ _ _ _ _ _ _ _ h'
  exact ⟨a1, a2.trans a1.symm⟩

theorem rtdose_eval_shift5 :
    rtdoseGetProfile readerG (some (((0 : ℚ), 0, 0) + ((5 : ℚ), 5, 5)))
      (some (((0 : ℚ), 0, 0) + ((5 : ℚ), 5, 5))) (1 * 10) =
      Except.ok (some [(((5 : ℚ), 5, 5), 0)]) := by
  rw [show (((0 : ℚ), 0, 0) + ((5 : ℚ), 5, 5) : V3) = ((5 : ℚ), 5, 5) from by
    norm_num [Prod.mk_add_mk]]
  rw [rtdoseGetProfile_ok readerG _ _ _ 1 matInv_one, numSamples_self,
    linspace3_one]
  simp only [List.map_cons, List.map_nil, applyMat_one]
  rw [show readerG.method = Method.nearest from rfl,
    show readerG.grid = gridG from rfl,
    interpolate_of_not_inBounds _ _ _ (not_inBounds_x 5 5 5 (by norm_num))]

theorem ptp_eval_shift5 :
    profileToolGetProfile readerG none ((0 : ℚ), 0, 0) ((0 : ℚ), 0, 0) 1 "Gy"
      false ((5 : ℚ), 5, 5) = Except.ok [(((0 : ℚ), 0, 0), 0)] := by
  rw [profileToolGetProfile_eq readerG none ((0 : ℚ), 0, 0) ((0 : ℚ), 0, 0) 1
    "Gy" false ((5 : ℚ), 5, 5) [(((5 : ℚ), 5, 5), 0)] rtdose_eval_shift5]
  rw [show readerG.units = "GY" from rfl, convertDose_GY_Gy]
  norm_num [normalizeMU, Prod.mk_sub_mk]

/-- C9 witness: two runs on the fixture reader differing only in the zero
point — (5,5,5) versus the origin — return identical coordinate columns
[(0,0,0)] while their dose columns differ (0 versus 7). -/
theorem c9_zero_point_cancellation_witness :
    ([(((0 : ℚ), 0, 0), (0 : ℚ))] : List (V3 × ℚ)).map Prod.fst =
      ([(((0 : ℚ), 0, 0), (7 : ℚ))] : List (V3 × ℚ)).map Prod.fst := by
  have h := c9_zero_point_cancellation readerG none ((0 : ℚ), 0, 0)
    ((0 : ℚ), 0, 0) 1 "Gy" false ((5 : ℚ), 5, 5) ((0 : ℚ), 0, 0)
    [(((0 : ℚ), 0, 0), 0)] [(((0 : ℚ), 0, 0), 7)]
    ptp_eval_shift5 (ptp_eval_origin none)
  exact h.2

/-- C4: the centimeter/millimeter boundary.  For a successful
`profiles_from_file` line, the sample count computed after the ×10
conversions (endpoints ×10 and zero-point shift in `get_profile`, spacing
×10) equals the count computed directly in centimeters, and the output
coordinate columns — divided by 10 before being reported — are exactly the
centimeter linspace from p0 to p1. -/
theorem c4_cm_mm_boundary (r : Reader) (mu : Option ℚ) (p0 p1 : V3) (s : ℚ)
    (units : String) (norm : Bool) (z : V3) (rows : List (V3 × ℚ))
    (h : profilesFromFileLine r mu p0 p1 s units norm z = Except.ok rows) :
    numSamples ((10 : ℚ) • p0 + z) ((10 : ℚ) • p1 + z) (s * 10) =
      numSamples p0 p1 s ∧
    rows.map Prod.fst = linspace3 p0 p1 (numSamples p0 p1 s) :=
  ⟨numSamples_scale10 p0 p1 z s,
   profilesFromFileLine_ok_fst _ _ _ _ _ _ _ _ _ h⟩

theorem numSamples_10_10 :
    numSamples ((0 : ℚ), 0, 0) ((10 : ℚ), 0, 0) (1 * 10) = 2 := by
  have hd : dist2 ((0 : ℚ), 0, 0) ((10 : ℚ), 0, 0) = 100 := by
    unfold dist2
    norm_num
  unfold numSamples
  rw [hd, show (100 : ℚ) / (1 * 10) ^ 2 = 1 by norm_num, Int.floor_one,
    show ((1 : ℤ)).toNat = 1 from rfl, Nat.sqrt_one]

theorem rtdose_eval_10cm :
    rtdoseGetProfile readerG
      (some (((10 : ℚ) • ((0 : ℚ), 0, 0) : V3) + ((0 : ℚ), 0, 0)))
      (some (((10 : ℚ) • ((1 : ℚ), 0, 0) : V3) + ((0 : ℚ), 0, 0))) (1 * 10) =
      Except.ok (some [(((0 : ℚ), 0, 0), 7), (((10 : ℚ), 0, 0), 0)]) := by
  rw [show ((10 : ℚ) • ((0 : ℚ), 0, 0) + ((0 : ℚ), 0, 0) : V3) = ((0 : ℚ), 0, 0)
      from by norm_num [Prod.smul_mk, Prod.mk_add_mk],
    show ((10 : ℚ) • ((1 : ℚ), 0, 0) + ((0 : ℚ), 0, 0) : V3) = ((10 : ℚ), 0, 0)
      from by norm_num [Prod.smul_mk, Prod.mk_add_mk]]
  rw [rtdoseGetProfile_ok readerG _ _ _ 1 matInv_one, numSamples_10_10,
    linspace3_two]
  simp only [List.map_cons, List.map_nil, applyMat_one]
  rw [show readerG.method = Method.nearest from rfl,
    show readerG.grid = gridG from rfl, interp_origin,
    interpolate_of_not_inBounds _ _ _
      (not_inBounds_x 10 0 0 (by norm_num))]

theorem ptp_eval_10cm :
    profileToolGetProfile readerG none ((10 : ℚ) • ((0 : ℚ), 0, 0))
      ((10 : ℚ) • ((1 : ℚ), 0, 0)) 1 "Gy" false ((0 : ℚ), 0, 0) =
      Except.ok [(((0 : ℚ), 0, 0), 7), (((10 : ℚ), 0, 0), 0)] := by
  rw [profileToolGetProfile_eq readerG none ((10 : ℚ) • ((0 : ℚ), 0, 0))
    ((10 : ℚ) • ((1 : ℚ), 0, 0)) 1 "Gy" false ((0 : ℚ), 0, 0)
    [(((0 : ℚ), 0, 0), 7), (((10 : ℚ), 0, 0), 0)] rtdose_eval_10cm]
  rw [show readerG.units = "GY" from rfl, convertDose_GY_Gy]
  norm_num [normalizeMU, Prod.mk_sub_mk]

theorem pffl_eval :
    profilesFromFileLine readerG none ((0 : ℚ), 0, 0) ((1 : ℚ), 0, 0) 1 "Gy"
      false ((0 : ℚ), 0, 0) =
      Except.ok [(((0 : ℚ), 0, 0), 7), (((1 : ℚ), 0, 0), 0)] := by
  unfold profilesFromFileLine
  rw [ptp_eval_10cm]
  norm_num [Prod.smul_mk]

/-- C4 witness: for the centimeter endpoints (0,0,0) and (1,0,0) with
spacing 1 cm on the fixture reader, the sample count agrees between the
millimeter and centimeter computations and the reported coordinates are
the centimeter linspace. -/
theorem c4_cm_mm_boundary_witness :
    numSamples ((10 : ℚ) • ((0 : ℚ), 0, 0) + ((0 : ℚ), 0, 0))
        ((10 : ℚ) • ((1 : ℚ), 0, 0) + ((0 : ℚ), 0, 0)) (1 * 10) =
      numSamples ((0 : ℚ), 0, 0) ((1 : ℚ), 0, 0) 1 ∧
    ([(((0 : ℚ), 0, 0), (7 : ℚ)), (((1 : ℚ), 0, 0), 0)] :
      List (V3 × ℚ)).map Prod.fst =
      linspace3 ((0 : ℚ), 0, 0) ((1 : ℚ), 0, 0)
        (numSamples ((0 : ℚ), 0, 0) ((1 : ℚ), 0, 0) 1) :=
  c4_cm_mm_boundary readerG none ((0 : ℚ), 0, 0) ((1 : ℚ), 0, 0) 1 "Gy"
    false ((0 : ℚ), 0, 0) _ pffl_eval

end DoseTool
